import Mathlib

/-!
# x-files.js — verification of the protocol engine and path-security layer

Shallow embedding of the request/response protocol engine of the x-files.js
repository: the server-side `XFilesHandler` (path validation, permission
checks, operation dispatch, `src/server/handler.ts`) and the client-side
`XFilesClient` (request correlation, reconnection, `src/client/client.ts`).

Modelling conventions:
* POSIX paths only (the server runs on Node; `path.normalize`/`path.resolve`
  are embedded following Node's posix implementation, with the current
  working directory passed explicitly and assumed absolute).
* Thrown JavaScript `Error` objects are values of `JsError` carrying the
  message and the optional `code` property set by `fs` errors.
* The filesystem is a flat association list from absolute path to node;
  environmental failures that no claim depends on (missing parent
  directories, OS permission errors) are outside the model.
* Timestamps on freshly created nodes come from an explicit `now : FileMeta`
  input; regular-expression matching in `search` is an oracle function in
  the environment.  Byte length of text content is modelled as UTF-8 byte
  size (the code's default encoding).
* Asynchronous callback code on the client becomes a step function
  `ClientState → ClientEvent → ClientState × List ClientOutput`.
-/

deriving instance DecidableEq for Except

namespace XFiles

/-- A thrown JavaScript `Error`: its `message` and the optional `code`
property (set on Node `fs` errors such as `ENOENT`). -/
structure JsError where
  message : String
  code : Option String
deriving DecidableEq, Repr

/-! ## String primitives

Kernel-executable equivalents of the string operations the source uses
(`startsWith`, `endsWith`, `split('/')`, `slice`, …), defined by structural
recursion on the character list so that concrete instances evaluate by
`decide`. -/

def chStartsWith : List Char → List Char → Bool
  | _, [] => true
  | [], _ :: _ => false
  | c :: cs, d :: ds => c = d ∧ chStartsWith cs ds

/-- `String.prototype.startsWith` / Lean `String.startsWith`. -/
def strStartsWith (s pre : String) : Bool := chStartsWith s.data pre.data

/-- `String.prototype.endsWith`. -/
def strEndsWith (s suf : String) : Bool :=
  chStartsWith s.data.reverse suf.data.reverse

def chSplitOnChar (sep : Char) : List Char → List (List Char)
  | [] => [[]]
  | c :: rest =>
    let r := chSplitOnChar sep rest
    if c = sep then [] :: r
    else match r with
      | [] => [[c]]
      | g :: gs => (c :: g) :: gs

/-- Split on `/`, as `path` does to obtain segments. -/
def strSplitSlash (s : String) : List String :=
  (chSplitOnChar '/' s.data).map String.mk

/-- Join segments with `/`. -/
def strJoinSlash : List String → String
  | [] => ""
  | [s] => s
  | s :: rest => s ++ "/" ++ strJoinSlash rest

/-- Drop the first `n` characters (`String.prototype.slice(n)`). -/
def strDrop (s : String) (n : Nat) : String := String.mk (s.data.drop n)

def strLength (s : String) : Nat := s.data.length

def strContainsSlash (s : String) : Bool := s.data.any (· = '/')

/-- Remove every NUL character (`replace(/\0/g, '')`). -/
def stripNulls (s : String) : String :=
  String.mk (s.data.filter (· ≠ '\x00'))

/-! ## Node path model (posix) -/

/-- Core of Node's `normalizeString`: consume `/`-separated segments,
dropping empty and `.` segments and resolving `..` against the stack of
already-accepted segments. `allowAboveRoot` is true for relative paths,
where leading `..` segments are preserved. The accumulated `stack` is kept
reversed. -/
def normStack (allowAboveRoot : Bool) (stack : List String) : List String → List String
  | [] => stack.reverse
  | seg :: rest =>
    if seg = "" ∨ seg = "." then
      normStack allowAboveRoot stack rest
    else if seg = ".." then
      match stack with
      | [] => normStack allowAboveRoot (if allowAboveRoot then [".."] else []) rest
      | top :: below =>
        if top = ".." then normStack allowAboveRoot (".." :: top :: below) rest
        else normStack allowAboveRoot below rest
    else
      normStack allowAboveRoot (seg :: stack) rest

/-- Node `path.posix.normalize`. -/
def pathNormalize (p : String) : String :=
  if p = "" then "."
  else
    let isAbs := strStartsWith p "/"
    let trailingSep := strEndsWith p "/"
    let body := strJoinSlash (normStack (!isAbs) [] (strSplitSlash p))
    if body = "" then
      if isAbs then "/" else if trailingSep then "./" else "."
    else
      let body := if trailingSep then body ++ "/" else body
      if isAbs then "/" ++ body else body

/-- Node `path.posix.resolve` applied to one argument, with the process
current working directory `cwd` made explicit (`cwd` is assumed absolute,
as `process.cwd()` always is). -/
def pathResolve (cwd p : String) : String :=
  let joined :=
    if p = "" then cwd
    else if strStartsWith p "/" then p
    else cwd ++ "/" ++ p
  let body := strJoinSlash (normStack false [] (strSplitSlash joined))
  if body = "" then "/" else "/" ++ body

/-- Node `path.posix.join` of two components (used by the handler to build
child entry paths). -/
def pathJoin (a b : String) : String :=
  if a = "" ∧ b = "" then "."
  else if a = "" then pathNormalize b
  else if b = "" then pathNormalize a
  else pathNormalize (a ++ "/" ++ b)

/-- Node `path.posix.basename` (no extension argument). -/
def pathBasename (p : String) : String :=
  let segs := (strSplitSlash p).filter (· ≠ "")
  match segs.getLast? with
  | some s => s
  | none => ""

/-! ## Shared wire types (`src/shared/types.ts`) -/

/-- `ServerConfig`: capabilities pushed to the client on connect. -/
structure ServerConfig where
  allowedPaths : List String
  allowWrite : Bool
  allowDelete : Bool
  maxFileSize : Nat
deriving DecidableEq, Repr

/-- `FileEntry`: one filesystem node snapshot (the optional `permissions`
field is never set by the handler and is omitted). -/
structure FileEntry where
  name : String
  path : String
  isDirectory : Bool
  isFile : Bool
  size : Nat
  modified : String
  created : String
deriving DecidableEq, Repr

/-- Search options of the `search` operation (`{recursive?, maxResults?}`). -/
structure SearchOptions where
  recursive : Option Bool
  maxResults : Option Nat
deriving DecidableEq, Repr

/-- `ClientMessage`: a decoded request frame. `type` is a plain string (a
frame can carry any operation kind at runtime). The operation-specific
string fields are `""` when absent, which coincides with JavaScript
falsiness of both `undefined` and the empty string in the places the
handler reads them. -/
structure ClientMessage where
  type : String
  requestId : Nat
  path : String := ""
  oldPath : String := ""
  newPath : String := ""
  source : String := ""
  destination : String := ""
  content : String := ""
  encoding : String := "utf-8"
  pattern : String := ""
  options : SearchOptions := ⟨none, none⟩
deriving DecidableEq, Repr

/-- Data payload of a successful `result` envelope, one shape per
operation. -/
inductive OpData where
  | entries (xs : List FileEntry)
  | entry (e : FileEntry)
  | readData (content : String) (size : Nat)
  | writeData (path : String) (size : Nat)
  | mkdirData (path : String)
  | deleteData (deleted : String)
  | renameData (oldPath newPath : String)
  | copyData (source destination : String)
  | existsData (ex : Bool) (isDir isFl : Option Bool)
deriving DecidableEq, Repr

/-- `ServerMessage`: a server-to-client envelope. -/
inductive ServerMessage where
  | connected (config : ServerConfig)
  | result (requestId : Nat) (success : Bool) (data : Option OpData) (errMsg : Option String)
  | error (message : String)
deriving DecidableEq, Repr

/-! ## Filesystem model -/

/-- Timestamps of a node, as ISO strings (their values are opaque to all
claims). -/
structure FileMeta where
  mtime : String
  birthtime : String
deriving DecidableEq, Repr

/-- One filesystem node: a regular file (content, on-disk byte size,
timestamps) or a directory. -/
inductive FsNode where
  | file (content : String) (size : Nat) (meta : FileMeta)
  | dir (size : Nat) (meta : FileMeta)
deriving DecidableEq, Repr

def FsNode.isDir : FsNode → Bool
  | .dir _ _ => true
  | .file _ _ _ => false

def FsNode.isFl : FsNode → Bool
  | .dir _ _ => false
  | .file _ _ _ => true

def FsNode.size : FsNode → Nat
  | .dir s _ => s
  | .file _ s _ => s

def FsNode.meta : FsNode → FileMeta
  | .dir _ m => m
  | .file _ _ m => m

/-- The filesystem: a flat association list from absolute canonical path to
node. -/
abbrev FileSystem := List (String × FsNode)

def fsLookup (fs : FileSystem) (p : String) : Option FsNode :=
  (fs.find? (fun pn => pn.1 = p)).map (·.2)

/-- Create or overwrite the node at `p`. -/
def fsSet (fs : FileSystem) (p : String) (n : FsNode) : FileSystem :=
  if (fs.find? (fun pn => pn.1 = p)).isSome then
    fs.map (fun pn => if pn.1 = p then (p, n) else pn)
  else fs ++ [(p, n)]

/-- Is `p` equal to `root` or strictly inside it? -/
def pathUnder (root p : String) : Bool :=
  p = root ∨ strStartsWith p (root ++ "/")

/-- Remove the node at `r` together with its whole subtree (`fs.rm
{recursive:true}` / `fs.unlink`). -/
def fsRemoveTree (fs : FileSystem) (r : String) : FileSystem :=
  fs.filter (fun pn => ¬ pathUnder r pn.1)

/-- `(name, node)` pairs of the immediate children of directory `parent`
(`fs.readdir`). -/
def childNameOf (parent p : String) : Option String :=
  let pre := if parent = "/" then "/" else parent ++ "/"
  if strStartsWith p pre then
    let name := strDrop p (strLength pre)
    if name ≠ "" ∧ ¬ strContainsSlash name then some name else none
  else none

def childEntries (fs : FileSystem) (parent : String) : List (String × FsNode) :=
  fs.filterMap (fun pn => (childNameOf parent pn.1).map (fun name => (name, pn.2)))

/-- `fs.stat`: the node at `p`, or a thrown `ENOENT` error. -/
def fsStat (fs : FileSystem) (p : String) : Except JsError FsNode :=
  match fsLookup fs p with
  | some n => .ok n
  | none => .error ⟨"ENOENT: no such file or directory, stat " ++ p, some "ENOENT"⟩

/-- `Buffer.byteLength(content, encoding)`, modelled for the default UTF-8
encoding. -/
def byteLength (content : String) : Nat := content.utf8ByteSize

/-! ## Handler configuration (`XFilesConfig` merged with `DEFAULT_CONFIG`) -/

/-- Effective handler configuration after merging with defaults. The
`authenticate` hook only participates in the connection-acceptance phase
(not modelled here); the `authorize` hook is a pure boolean function of
`(operation, path)` — the per-connection request context it also receives
does not influence any claim. -/
structure XFilesConfig where
  allowedPaths : List String
  allowWrite : Bool := false
  allowDelete : Bool := false
  maxFileSize : Nat := 10 * 1024 * 1024
  authorize : Option (String → String → Bool) := none

/-- `getServerConfig`: the capability record pushed to clients. -/
def getServerConfig (cfg : XFilesConfig) : ServerConfig :=
  ⟨cfg.allowedPaths, cfg.allowWrite, cfg.allowDelete, cfg.maxFileSize⟩

/-- Ambient execution environment of the handler: the process working
directory (assumed absolute), the clock used for timestamps of created
nodes, and the case-insensitive regular-expression test used by `search`
(abstracted as an oracle). -/
structure Env where
  cwd : String
  now : FileMeta
  regexTest : String → String → Bool

/-! ## Path security layer (`XFilesHandler.isPathAllowed` /
`sanitizePath` / `validatePath`) -/

/-- `isPathAllowed`: resolve and normalize the target and accept when some
allow-listed root is a string prefix of it. -/
def isPathAllowed (cfg : XFilesConfig) (cwd : String) (targetPath : String) : Bool :=
  let normalizedTarget := pathNormalize (pathResolve cwd targetPath)
  cfg.allowedPaths.any (fun allowedPath =>
    let normalizedAllowed := pathNormalize (pathResolve cwd allowedPath)
    strStartsWith normalizedTarget normalizedAllowed)

/-- `sanitizePath`: strip null bytes and normalize. -/
def sanitizePath (inputPath : String) : String :=
  pathNormalize (stripNulls inputPath)

/-- `validatePath`: sanitize, resolve, and throw `Access denied` unless the
resolved path is allowed. -/
def validatePath (cfg : XFilesConfig) (cwd : String) (inputPath : String) :
    Except JsError String :=
  let sanitized := sanitizePath inputPath
  let resolved := pathResolve cwd sanitized
  if isPathAllowed cfg cwd resolved then .ok resolved
  else .error ⟨"Access denied: " ++ inputPath, none⟩

/-- `checkWritePermission`. -/
def checkWritePermission (cfg : XFilesConfig) : Except JsError Unit :=
  if cfg.allowWrite then .ok () else .error ⟨"Write operations are not allowed", none⟩

/-- `checkDeletePermission`. -/
def checkDeletePermission (cfg : XFilesConfig) : Except JsError Unit :=
  if cfg.allowDelete then .ok () else .error ⟨"Delete operations are not allowed", none⟩

/-! ## File operations -/

/-- Build a `FileEntry` from a node (as `listDirectory`/`getStats`/`search`
do from `fs.stat` results). -/
def mkEntry (name entryPath : String) (n : FsNode) : FileEntry :=
  ⟨name, entryPath, n.isDir, n.isFl, n.size, n.meta.mtime, n.meta.birthtime⟩

/-- The sort comparator of `listDirectory`: directories first, then by name
(`localeCompare` modelled as code-point order). -/
def entryLE (a b : FileEntry) : Bool :=
  if a.isDirectory ∧ ¬ b.isDirectory then true
  else if ¬ a.isDirectory ∧ b.isDirectory then false
  else decide (a.name ≤ b.name)

/-- `listDirectory`: validate, enumerate children, stat each (in the flat
model a listed child's stat always succeeds, so the skip-on-error branch is
vacuous), sort directories-first then by name. -/
def listDirectory (cfg : XFilesConfig) (cwd : String) (fs : FileSystem)
    (dirPath : String) : Except JsError (List FileEntry) := do
  let resolvedPath ← validatePath cfg cwd dirPath
  match fsLookup fs resolvedPath with
  | none => .error ⟨"ENOENT: no such file or directory, scandir " ++ resolvedPath, some "ENOENT"⟩
  | some (.file _ _ _) => .error ⟨"ENOTDIR: not a directory, scandir " ++ resolvedPath, some "ENOTDIR"⟩
  | some (.dir _ _) =>
    let results := (childEntries fs resolvedPath).map
      (fun en => mkEntry en.1 (pathJoin resolvedPath en.1) en.2)
    .ok (results.mergeSort entryLE)

/-- `getStats`: validate and stat one path. -/
def getStats (cfg : XFilesConfig) (cwd : String) (fs : FileSystem)
    (filePath : String) : Except JsError FileEntry := do
  let resolvedPath ← validatePath cfg cwd filePath
  let n ← fsStat fs resolvedPath
  .ok (mkEntry (pathBasename resolvedPath) resolvedPath n)

/-- `readFile`: validate, stat, reject sizes over `maxFileSize`, then read
(reading a directory raises `EISDIR` as `fs.readFile` does). -/
def readFile (cfg : XFilesConfig) (cwd : String) (fs : FileSystem)
    (filePath : String) : Except JsError (String × Nat) := do
  let resolvedPath ← validatePath cfg cwd filePath
  let n ← fsStat fs resolvedPath
  if n.size > cfg.maxFileSize then
    .error ⟨"File too large: " ++ toString n.size ++ " bytes (max: " ++
      toString cfg.maxFileSize ++ ")", none⟩
  else
    match n with
    | .file content _ _ => .ok (content, n.size)
    | .dir _ _ => .error ⟨"EISDIR: illegal operation on a directory, read", some "EISDIR"⟩

/-- `writeFile`: validate, reject content over `maxFileSize` before any
write, then create/overwrite and report the resulting on-disk size. -/
def writeFile (cfg : XFilesConfig) (cwd : String) (now : FileMeta)
    (fs : FileSystem) (filePath content : String) :
    Except JsError (String × Nat) × FileSystem :=
  match validatePath cfg cwd filePath with
  | .error e => (.error e, fs)
  | .ok resolvedPath =>
    let contentSize := byteLength content
    if contentSize > cfg.maxFileSize then
      (.error ⟨"Content too large: " ++ toString contentSize ++ " bytes (max: " ++
        toString cfg.maxFileSize ++ ")", none⟩, fs)
    else
      let fs := fsSet fs resolvedPath (.file content contentSize now)
      (.ok (resolvedPath, contentSize), fs)

/-- `createDirectory` (`fs.mkdir {recursive:true}`): idempotent on an
existing directory; creating over an existing file raises `EEXIST`. -/
def createDirectory (cfg : XFilesConfig) (cwd : String) (now : FileMeta)
    (fs : FileSystem) (dirPath : String) : Except JsError String × FileSystem :=
  match validatePath cfg cwd dirPath with
  | .error e => (.error e, fs)
  | .ok resolvedPath =>
    match fsLookup fs resolvedPath with
    | some (.file _ _ _) =>
      (.error ⟨"EEXIST: file already exists, mkdir " ++ resolvedPath, some "EEXIST"⟩, fs)
    | some (.dir _ _) => (.ok resolvedPath, fs)
    | none => (.ok resolvedPath, fsSet fs resolvedPath (.dir 0 now))

/-- `deleteItem`: validate, stat, then `rm -r` a directory or `unlink` a
file. -/
def deleteItem (cfg : XFilesConfig) (cwd : String) (fs : FileSystem)
    (itemPath : String) : Except JsError String × FileSystem :=
  match validatePath cfg cwd itemPath with
  | .error e => (.error e, fs)
  | .ok resolvedPath =>
    match fsStat fs resolvedPath with
    | .error e => (.error e, fs)
    | .ok n =>
      if n.isDir then (.ok resolvedPath, fsRemoveTree fs resolvedPath)
      else (.ok resolvedPath, fs.filter (fun pn => pn.1 ≠ resolvedPath))

/-- `renameItem`: validate both endpoints, then atomically move the node
and its subtree (overwriting the destination). -/
def renameItem (cfg : XFilesConfig) (cwd : String) (fs : FileSystem)
    (oldPath newPath : String) : Except JsError (String × String) × FileSystem :=
  match validatePath cfg cwd oldPath with
  | .error e => (.error e, fs)
  | .ok resolvedOld =>
    match validatePath cfg cwd newPath with
    | .error e => (.error e, fs)
    | .ok resolvedNew =>
      match fsLookup fs resolvedOld with
      | none =>
        (.error ⟨"ENOENT: no such file or directory, rename " ++ resolvedOld ++
          " -> " ++ resolvedNew, some "ENOENT"⟩, fs)
      | some _ =>
        let cleared := fs.filter (fun pn => ¬ pathUnder resolvedNew pn.1)
        let moved := cleared.map (fun pn =>
          if pn.1 = resolvedOld then (resolvedNew, pn.2)
          else if strStartsWith pn.1 (resolvedOld ++ "/") then
            (resolvedNew ++ strDrop pn.1 (strLength resolvedOld), pn.2)
          else pn)
        (.ok (resolvedOld, resolvedNew), moved)

/-- `copyDirectoryRecursive`: create the destination directory, then copy
every child, recursing into subdirectories. `fuel` bounds the recursion
depth; the callers pass a value that exceeds any possible nesting depth of
the finite filesystem. -/
def copyDirectoryRecursive (now : FileMeta) (fuel : Nat) (fs : FileSystem)
    (source destination : String) : FileSystem :=
  match fuel with
  | 0 => fs
  | fuel + 1 =>
    let fs1 :=
      match fsLookup fs destination with
      | some (.dir _ _) => fs
      | _ => fsSet fs destination (.dir 0 now)
    (childEntries fs source).foldl (fun acc en =>
      let srcPath := pathJoin source en.1
      let destPath := pathJoin destination en.1
      match en.2 with
      | .dir _ _ => copyDirectoryRecursive now fuel acc srcPath destPath
      | .file c sz _ => fsSet acc destPath (.file c sz now)) fs1

/-- `copyItem`: validate both endpoints, stat the source, then copy a file
or a whole directory tree. -/
def copyItem (cfg : XFilesConfig) (cwd : String) (now : FileMeta)
    (fs : FileSystem) (source destination : String) :
    Except JsError (String × String) × FileSystem :=
  match validatePath cfg cwd source with
  | .error e => (.error e, fs)
  | .ok resolvedSource =>
    match validatePath cfg cwd destination with
    | .error e => (.error e, fs)
    | .ok resolvedDest =>
      match fsStat fs resolvedSource with
      | .error e => (.error e, fs)
      | .ok (.dir _ _) =>
        (.ok (resolvedSource, resolvedDest),
         copyDirectoryRecursive now (fs.length + 1) fs resolvedSource resolvedDest)
      | .ok (.file c sz _) =>
        (.ok (resolvedSource, resolvedDest), fsSet fs resolvedDest (.file c sz now))

/-- `exists`: try validate-and-stat; catch a thrown error and convert
`ENOENT` into `{exists:false}`, re-throwing anything else (including
`Access denied`, whose error has no `code`). -/
def existsOp (cfg : XFilesConfig) (cwd : String) (fs : FileSystem)
    (itemPath : String) : Except JsError (Bool × Option Bool × Option Bool) :=
  let attempt : Except JsError FsNode := do
    let resolvedPath ← validatePath cfg cwd itemPath
    fsStat fs resolvedPath
  match attempt with
  | .ok n => .ok (true, some n.isDir, some n.isFl)
  | .error e =>
    if e.code = some "ENOENT" then .ok (false, none, none) else .error e

/-- `searchDirectoryRecursive`: scan children, collect name matches up to
`maxResults`, recurse into subdirectories when `recursive`; unreadable
directories are skipped silently. `fuel` bounds recursion depth as in
`copyDirectoryRecursive`. -/
def searchDirectoryRecursive (test : String → String → Bool) (fuel : Nat)
    (fs : FileSystem) (pat : String) (recursive : Bool) (maxResults : Nat)
    (dirPath : String) (results : List FileEntry) : List FileEntry :=
  match fuel with
  | 0 => results
  | fuel + 1 =>
    if results.length ≥ maxResults then results
    else
      match fsLookup fs dirPath with
      | some (.dir _ _) =>
        (childEntries fs dirPath).foldl (fun acc en =>
          if acc.length ≥ maxResults then acc
          else
            let entryPath := pathJoin dirPath en.1
            let acc := if test pat en.1 then acc ++ [mkEntry en.1 entryPath en.2] else acc
            if recursive ∧ en.2.isDir then
              searchDirectoryRecursive test fuel fs pat recursive maxResults entryPath acc
            else acc) results
      | _ => results

/-- `searchFiles`: validate the root then run the recursive scan with the
defaulted options. -/
def searchFiles (cfg : XFilesConfig) (cwd : String) (test : String → String → Bool)
    (fs : FileSystem) (dirPath pat : String) (options : SearchOptions) :
    Except JsError (List FileEntry) := do
  let resolvedPath ← validatePath cfg cwd dirPath
  let recursive := options.recursive.getD true
  let maxResults := options.maxResults.getD 100
  .ok (searchDirectoryRecursive test (fs.length + 1) fs pat recursive maxResults
    resolvedPath [])

/-! ## Operation dispatcher (`XFilesHandler.handleMessage`) -/

/-- The authorization target path: `params.path || params.oldPath ||
params.source || ''` (JavaScript `||`, under which the empty string is
falsy). -/
def authTargetPath (msg : ClientMessage) : String :=
  if msg.path ≠ "" then msg.path
  else if msg.oldPath ≠ "" then msg.oldPath
  else if msg.source ≠ "" then msg.source
  else ""

/-- Does the configured `authorize` hook (if any) approve this message? -/
def authOK (cfg : XFilesConfig) (msg : ClientMessage) : Bool :=
  match cfg.authorize with
  | none => true
  | some f => f msg.type (authTargetPath msg)

/-- The `try`-block of `handleMessage`: permission check and operation
execution for one request, returning the thrown error or the result data,
plus the filesystem after the operation. -/
def dispatchOp (cfg : XFilesConfig) (env : Env) (fs : FileSystem)
    (msg : ClientMessage) : Except JsError OpData × FileSystem :=
  if msg.type = "list" then
    ((listDirectory cfg env.cwd fs msg.path).map .entries, fs)
  else if msg.type = "stat" then
    ((getStats cfg env.cwd fs msg.path).map .entry, fs)
  else if msg.type = "read" then
    ((readFile cfg env.cwd fs msg.path).map (fun r => .readData r.1 r.2), fs)
  else if msg.type = "write" then
    match checkWritePermission cfg with
    | .error e => (.error e, fs)
    | .ok _ =>
      let r := writeFile cfg env.cwd env.now fs msg.path msg.content
      (r.1.map (fun w => .writeData w.1 w.2), r.2)
  else if msg.type = "mkdir" then
    match checkWritePermission cfg with
    | .error e => (.error e, fs)
    | .ok _ =>
      let r := createDirectory cfg env.cwd env.now fs msg.path
      (r.1.map .mkdirData, r.2)
  else if msg.type = "delete" then
    match checkDeletePermission cfg with
    | .error e => (.error e, fs)
    | .ok _ =>
      let r := deleteItem cfg env.cwd fs msg.path
      (r.1.map .deleteData, r.2)
  else if msg.type = "rename" then
    match checkWritePermission cfg with
    | .error e => (.error e, fs)
    | .ok _ =>
      let r := renameItem cfg env.cwd fs msg.oldPath msg.newPath
      (r.1.map (fun x => .renameData x.1 x.2), r.2)
  else if msg.type = "copy" then
    match checkWritePermission cfg with
    | .error e => (.error e, fs)
    | .ok _ =>
      let r := copyItem cfg env.cwd env.now fs msg.source msg.destination
      (r.1.map (fun x => .copyData x.1 x.2), r.2)
  else if msg.type = "exists" then
    ((existsOp cfg env.cwd fs msg.path).map (fun x => .existsData x.1 x.2.1 x.2.2), fs)
  else if msg.type = "search" then
    ((searchFiles cfg env.cwd env.regexTest fs msg.path msg.pattern msg.options).map
      .entries, fs)
  else
    (.error ⟨"Unknown operation: " ++ msg.type, none⟩, fs)

/-- `handleMessage`: authorization hook first (a denial answers with a
failed result envelope), then the dispatched operation wrapped in
`try`/`catch`, answering with exactly one result envelope echoing the
request id. Returns the sent envelopes and the filesystem afterwards. -/
def handleMessage (cfg : XFilesConfig) (env : Env) (fs : FileSystem)
    (msg : ClientMessage) : List ServerMessage × FileSystem :=
  if !(authOK cfg msg) then
    ([.result msg.requestId false none (some "Operation not authorized")], fs)
  else
    match dispatchOp cfg env fs msg with
    | (.ok d, fs) => ([.result msg.requestId true (some d) none], fs)
    | (.error e, fs) => ([.result msg.requestId false none (some e.message)], fs)

/-- Outcome of one inbound frame in the connection's message loop. -/
structure FrameOutcome where
  sends : List ServerMessage
  fs : FileSystem
  closesConnection : Bool
deriving DecidableEq, Repr

/-- The per-frame behaviour of the `Active`-state message loop in
`handleConnection`: a decodable frame goes to `handleMessage`; a decode
failure answers with a connection-level error envelope carrying the parse
error message. Neither branch closes the connection (the loop contains no
close call). -/
def handleFrame (cfg : XFilesConfig) (env : Env) (fs : FileSystem)
    (decoded : Except String ClientMessage) : FrameOutcome :=
  match decoded with
  | .ok msg =>
    let r := handleMessage cfg env fs msg
    ⟨r.1, r.2, false⟩
  | .error e => ⟨[.error e], fs, false⟩

/-! ## Client (`XFilesClient`, `src/client/client.ts`)

The client's callback-driven code is embedded as a step function over an
explicit state.  Promise resolution, WebSocket sends and the lifecycle
callbacks become elements of an output list.  The `resolve`/`reject` pair
of the `connect()` promise appears as `connectResolved`/`connectRejected`
outputs (settling an already-settled promise is a no-op for the caller,
which the outputs over-approximate harmlessly). -/

/-- Client configuration after applying the constructor defaults.
`autoReconnect` lives in the mutable state because `disconnect()` clears
it. -/
structure ClientConfig where
  autoReconnect : Bool := true
  maxReconnectAttempts : Nat := 5
  reconnectDelay : Nat := 1000
  maxReconnectDelay : Nat := 30000
deriving DecidableEq, Repr

/-- The mutable fields of `XFilesClient`. `hasWs` is `ws !== null`;
`reconnectTimer` holds the delay of the scheduled retry when one is
pending. -/
structure ClientState where
  hasWs : Bool
  connected : Bool
  connecting : Bool
  reconnectAttempts : Nat
  reconnectTimer : Option Nat
  requestId : Nat
  pendingRequests : List Nat
  serverConfig : Option ServerConfig
  autoReconnect : Bool
deriving DecidableEq, Repr

/-- Client state at construction. -/
def initClient (cfg : ClientConfig) : ClientState :=
  ⟨false, false, false, 0, none, 0, [], none, cfg.autoReconnect⟩

/-- Externally observable effects of one client step. -/
inductive ClientOutput where
  | connectResolved
  | connectRejected (msg : String)
  | requestSent (id : Nat) (op : String)
  | requestFailed (msg : String)
  | requestResolved (id : Nat) (data : Option OpData)
  | requestRejectedWith (id : Nat) (msg : String)
  | scheduledReconnect (delay : Nat)
  | onConnectCb
  | onDisconnectCb
  | onErrorCb (msg : String)
  | wsCloseRequested
deriving DecidableEq, Repr

/-- Events delivered to the client: its public calls, the WebSocket
callbacks, and the reconnect timer firing. -/
inductive ClientEvent where
  | connectCall
  | wsOpen
  | wsMessage (msg : ServerMessage)
  | wsClose
  | wsError
  | timerFire
  | requestCall (op : String)
  | disconnectCall
deriving DecidableEq, Repr

/-- Body of `connect()` (shared by the public call and the reconnect
timer): resolve at once when connected, reject when a connect is already in
progress, otherwise open a fresh WebSocket and mark `connecting`. -/
def connectStep (s : ClientState) : ClientState × List ClientOutput :=
  if s.connected then (s, [.connectResolved])
  else if s.connecting then (s, [.connectRejected "Connection already in progress"])
  else ({ s with connecting := true, hasWs := true }, [])

/-- `scheduleReconnect`: no-op when a timer is already pending, otherwise
arm a timer for `min(reconnectDelay * 2 ^ attempts, maxReconnectDelay)`. -/
def scheduleReconnect (cfg : ClientConfig) (s : ClientState) :
    ClientState × List ClientOutput :=
  match s.reconnectTimer with
  | some _ => (s, [])
  | none =>
    let delay := min (cfg.reconnectDelay * 2 ^ s.reconnectAttempts) cfg.maxReconnectDelay
    ({ s with reconnectTimer := some delay }, [.scheduledReconnect delay])

/-- `handleMessage` on the client: the `connected` push stores the server
config, fires `onConnect` and settles the pending `connect()`; an `error`
envelope rejects the pending `connect()` when not yet connected and
otherwise goes to the error callback; a `result` envelope settles and
removes its pending entry, and is ignored when no entry matches. -/
def clientHandleMessage (s : ClientState) (msg : ServerMessage) :
    ClientState × List ClientOutput :=
  match msg with
  | .connected config =>
    ({ s with serverConfig := some config, connecting := false },
     [.onConnectCb, .connectResolved])
  | .error e =>
    if !s.connected then
      ({ s with connecting := false }, [.connectRejected e])
    else (s, [.onErrorCb e])
  | .result rid success data errMsg =>
    if rid ∈ s.pendingRequests then
      ({ s with pendingRequests := s.pendingRequests.filter (· ≠ rid) },
       if success then [.requestResolved rid data]
       else [.requestRejectedWith rid (errMsg.getD "")])
    else (s, [])

/-- One step of the client in reaction to an event, mirroring the handlers
installed by `connect()` and the bodies of `request()`/`disconnect()`. -/
def clientStep (cfg : ClientConfig) (s : ClientState) (e : ClientEvent) :
    ClientState × List ClientOutput :=
  match e with
  | .connectCall => connectStep s
  | .wsOpen => ({ s with connected := true, reconnectAttempts := 0 }, [])
  | .wsMessage msg => clientHandleMessage s msg
  | .wsClose =>
    let wasConnected := s.connected
    let rejections := s.pendingRequests.map
      (fun id => ClientOutput.requestRejectedWith id "Connection closed")
    let s := { s with connected := false, connecting := false, pendingRequests := [] }
    let discOuts := if wasConnected then [ClientOutput.onDisconnectCb] else []
    if s.autoReconnect ∧ s.reconnectAttempts < cfg.maxReconnectAttempts then
      let r := scheduleReconnect cfg s
      (r.1, rejections ++ discOuts ++ r.2)
    else (s, rejections ++ discOuts)
  | .wsError =>
    if !s.connected then
      ({ s with connecting := false },
       [.onErrorCb "WebSocket connection error", .connectRejected "WebSocket connection error"])
    else (s, [.onErrorCb "WebSocket connection error"])
  | .timerFire =>
    let s := { s with reconnectTimer := none, reconnectAttempts := s.reconnectAttempts + 1 }
    connectStep s
  | .requestCall op =>
    if ¬ s.connected ∨ ¬ s.hasWs then (s, [.requestFailed "Not connected"])
    else
      let rid := s.requestId + 1
      ({ s with requestId := rid, pendingRequests := s.pendingRequests ++ [rid] },
       [.requestSent rid op])
  | .disconnectCall =>
    let s := { s with autoReconnect := false, reconnectTimer := none }
    if s.hasWs then
      ({ s with hasWs := false, connected := false }, [.wsCloseRequested])
    else ({ s with connected := false }, [])

/-- Run the client over a list of events, collecting all outputs. -/
def clientRun (cfg : ClientConfig) (s : ClientState) :
    List ClientEvent → ClientState × List ClientOutput
  | [] => (s, [])
  | e :: rest =>
    let r := clientStep cfg s e
    let r2 := clientRun cfg r.1 rest
    (r2.1, r.2 ++ r2.2)

/-- The requestIds carried by the `requestSent` outputs of a trace, in
order. -/
def sentIds (outs : List ClientOutput) : List Nat :=
  outs.filterMap (fun o =>
    match o with
    | .requestSent id _ => some id
    | _ => none)

/-! ## Concrete fixtures for witnesses -/

def demoMeta : FileMeta := ⟨"2024-01-01T00:00:00.000Z", "2024-01-01T00:00:00.000Z"⟩

def demoCfg : XFilesConfig := { allowedPaths := ["/data"] }

def demoEnv : Env := ⟨"/", demoMeta, fun _ _ => false⟩

def demoFs : FileSystem :=
  [("/data", .dir 0 demoMeta), ("/data/a.txt", .file "hi" 2 demoMeta)]

/-! ## Theorems -/

/-- C1: the claim says every path that is neither a configured root nor a
descendant of one is rejected with `AccessDenied`. The code compares
canonical paths with a bare string-prefix test and therefore accepts
sibling paths whose name merely extends a root's name: with allow-list
`["/data"]`, the input `/database` is neither the root `/data` nor under
`/data/`, yet `validatePath` accepts it and returns it — contradicting the
documented whitelist contract. -/
theorem validatePath_accepts_prefix_sibling :
    validatePath { allowedPaths := ["/data"] } "/" "/database" = .ok "/database"
    ∧ "/database" ≠ "/data"
    ∧ pathUnder "/data" "/database" = false := by decide

/-- C2: whenever `allowWrite` is false — independently of `allowDelete` —
each of `write`, `mkdir`, `rename` and `copy` answers with the
`Write operations are not allowed` failure and leaves the filesystem
untouched (for every filesystem, so no storage access precedes the
check); and whenever `allowDelete` is false — independently of
`allowWrite` — `delete` answers with `Delete operations are not allowed`
and removes nothing. The `authorize` hook (if any) is assumed to approve,
as it runs first. -/
theorem permission_flags_gate_mutations (cfg : XFilesConfig) (env : Env)
    (fs : FileSystem) (msg : ClientMessage)
    (hA : authOK cfg msg = true) :
    (cfg.allowWrite = false →
      (msg.type = "write" ∨ msg.type = "mkdir" ∨ msg.type = "rename" ∨ msg.type = "copy") →
      handleMessage cfg env fs msg =
        ([.result msg.requestId false none (some "Write operations are not allowed")], fs))
    ∧ (cfg.allowDelete = false → msg.type = "delete" →
      handleMessage cfg env fs msg =
        ([.result msg.requestId false none (some "Delete operations are not allowed")], fs)) := by
  constructor
  · intro hW
    rintro (h | h | h | h) <;>
      simp [handleMessage, hA, dispatchOp, h, checkWritePermission, hW]
  · intro hD h
    simp [handleMessage, hA, dispatchOp, h, checkDeletePermission, hD]

/-- Witness for C2 exercising each flag independently: a `write` request
against a handler with `allowDelete := true` (writes still disabled), and
the spec's own scenario — a `delete` request against a handler with
`allowWrite := true` and deletes disabled. -/
theorem permission_flags_gate_mutations_witness :
    handleMessage { allowedPaths := ["/data"], allowDelete := true } demoEnv demoFs
      { type := "write", requestId := 7, path := "/data/b.txt", content := "x" } =
      ([.result 7 false none (some "Write operations are not allowed")], demoFs)
    ∧ handleMessage { allowedPaths := ["/data"], allowWrite := true } demoEnv demoFs
      { type := "delete", requestId := 8, path := "/data/a.txt" } =
      ([.result 8 false none (some "Delete operations are not allowed")], demoFs) :=
  ⟨(permission_flags_gate_mutations { allowedPaths := ["/data"], allowDelete := true }
      demoEnv demoFs _ rfl).1 rfl (Or.inl rfl),
   (permission_flags_gate_mutations { allowedPaths := ["/data"], allowWrite := true }
      demoEnv demoFs _ rfl).2 rfl rfl⟩

/-- C3: every decoded request is answered with exactly one `result`
envelope echoing its requestId — whether the authorization hook denies it,
the operation succeeds, the operation throws, or the kind is unknown. -/
theorem one_result_envelope_per_request (cfg : XFilesConfig) (env : Env)
    (fs : FileSystem) (msg : ClientMessage) :
    ∃ success data errMsg,
      (handleMessage cfg env fs msg).1 =
        [ServerMessage.result msg.requestId success data errMsg] := by
  by_cases hA : authOK cfg msg
  · rcases hd : dispatchOp cfg env fs msg with ⟨r, fs2⟩
    cases r with
    | ok d => exact ⟨true, some d, none, by simp [handleMessage, hA, hd]⟩
    | error e => exact ⟨false, none, some e.message, by simp [handleMessage, hA, hd]⟩
  · exact ⟨false, none, some "Operation not authorized",
      by simp [handleMessage, Bool.of_not_eq_true hA]⟩

/-- C4: with a validated path holding a file of on-disk size `sz`, `read`
fails with the too-large error exactly when `sz > maxFileSize` and
otherwise returns the full content and size; `write` fails with the
too-large error exactly when the encoded content size exceeds
`maxFileSize` — leaving the filesystem untouched, so the check precedes
the write — and otherwise creates/overwrites the file and returns the
final size. Sizes equal to `maxFileSize` succeed in both. -/
theorem size_limit_read_write (cfg : XFilesConfig) (cwd : String) (now : FileMeta)
    (fs : FileSystem) (p r content c : String) (sz : Nat) (m : FileMeta)
    (hV : validatePath cfg cwd p = .ok r) :
    (fsLookup fs r = some (.file c sz m) → sz > cfg.maxFileSize →
      readFile cfg cwd fs p = .error ⟨"File too large: " ++ toString sz ++
        " bytes (max: " ++ toString cfg.maxFileSize ++ ")", none⟩)
    ∧ (fsLookup fs r = some (.file c sz m) → sz ≤ cfg.maxFileSize →
      readFile cfg cwd fs p = .ok (c, sz))
    ∧ (byteLength content > cfg.maxFileSize →
      writeFile cfg cwd now fs p content =
        (.error ⟨"Content too large: " ++ toString (byteLength content) ++
          " bytes (max: " ++ toString cfg.maxFileSize ++ ")", none⟩, fs))
    ∧ (byteLength content ≤ cfg.maxFileSize →
      writeFile cfg cwd now fs p content =
        (.ok (r, byteLength content),
         fsSet fs r (.file content (byteLength content) now))) := by
  refine ⟨?_, ?_, ?_, ?_⟩
  · intro hF hGt
    simp [readFile, bind, Except.bind, hV, fsStat, hF, FsNode.size, hGt, Nat.not_le_of_lt hGt]
  · intro hF hLe
    simp [readFile, bind, Except.bind, hV, fsStat, hF, FsNode.size, Nat.not_lt_of_le hLe]
  · intro hGt
    simp [writeFile, hV, hGt]
  · intro hLe
    simp [writeFile, hV, Nat.not_lt_of_le hLe]

/-- Witness for C4 with `maxFileSize = 2`: reading the 2-byte file
succeeds, writing 3 bytes fails without mutation, writing 2 bytes
succeeds. -/
theorem size_limit_read_write_witness :
    readFile { allowedPaths := ["/data"], maxFileSize := 2 } "/" demoFs "/data/a.txt" =
      .ok ("hi", 2)
    ∧ writeFile { allowedPaths := ["/data"], maxFileSize := 2 } "/" demoMeta demoFs
        "/data/b.txt" "abc" =
      (.error ⟨"Content too large: 3 bytes (max: 2)", none⟩, demoFs)
    ∧ writeFile { allowedPaths := ["/data"], maxFileSize := 2 } "/" demoMeta demoFs
        "/data/b.txt" "ab" =
      (.ok ("/data/b.txt", 2),
       fsSet demoFs "/data/b.txt" (.file "ab" 2 demoMeta)) :=
  ⟨(size_limit_read_write _ "/" demoMeta demoFs "/data/a.txt" "/data/a.txt" "" "hi" 2
      demoMeta (by decide)).2.1 (by decide) (by decide),
   (size_limit_read_write _ "/" demoMeta demoFs "/data/b.txt" "/data/b.txt" "abc" "" 0
      demoMeta (by decide)).2.2.1 (by decide),
   (size_limit_read_write _ "/" demoMeta demoFs "/data/b.txt" "/data/b.txt" "ab" "" 0
      demoMeta (by decide)).2.2.2 (by decide)⟩

/-- C9: on a validated path with no node, `exists` returns
`{exists:false}` without failing while `getStats` fails with the
underlying `ENOENT` error; and an error without the `ENOENT` code — in
this model the access-denial thrown by path validation — still propagates
out of `exists`. -/
theorem exists_vs_stat_on_missing (cfg : XFilesConfig) (cwd : String)
    (fs : FileSystem) (p r : String)
    (hV : validatePath cfg cwd p = .ok r)
    (hM : fsLookup fs r = none) :
    existsOp cfg cwd fs p = .ok (false, none, none)
    ∧ getStats cfg cwd fs p =
        .error ⟨"ENOENT: no such file or directory, stat " ++ r, some "ENOENT"⟩
    ∧ (∀ q e, validatePath cfg cwd q = .error e →
        existsOp cfg cwd fs q = .error e) := by
  refine ⟨?_, ?_, ?_⟩
  · simp [existsOp, bind, Except.bind, hV, fsStat, hM]
  · simp [getStats, bind, Except.bind, hV, fsStat, hM]
  · intro q e hE
    have hcode : e.code = none := by
      simp only [validatePath] at hE
      split at hE
      · exact absurd hE (by simp)
      · cases hE; rfl
    simp [existsOp, bind, Except.bind, hE, hcode]

/-- Witness for C9 on the demo filesystem: `/data/missing` is validated
but absent, `/etc/x` is outside the allow-list. -/
theorem exists_vs_stat_on_missing_witness :
    existsOp demoCfg "/" demoFs "/data/missing" = .ok (false, none, none)
    ∧ getStats demoCfg "/" demoFs "/data/missing" =
        .error ⟨"ENOENT: no such file or directory, stat /data/missing", some "ENOENT"⟩
    ∧ existsOp demoCfg "/" demoFs "/etc/x" =
        .error ⟨"Access denied: /etc/x", none⟩ :=
  have h := exists_vs_stat_on_missing demoCfg "/" demoFs "/data/missing" "/data/missing"
    (by decide) (by decide)
  ⟨h.1, h.2.1, h.2.2 "/etc/x" ⟨"Access denied: /etc/x", none⟩ (by decide)⟩

/-- C10: a decodable frame whose operation kind is none of the kinds the
dispatcher handles is answered with a `result` envelope
`{success:false, error:"Unknown operation: <kind>"}` echoing the frame's
requestId — not a connection-level `error` envelope — and the message loop
does not close the connection. (The authorization hook, which runs before
dispatch, is assumed to approve.) -/
theorem unknown_operation_gets_result_envelope (cfg : XFilesConfig) (env : Env)
    (fs : FileSystem) (msg : ClientMessage)
    (hA : authOK cfg msg = true)
    (hT : msg.type ∉ (["list", "stat", "read", "write", "mkdir", "delete",
      "rename", "copy", "exists", "search"] : List String)) :
    handleFrame cfg env fs (.ok msg) =
      ⟨[.result msg.requestId false none (some ("Unknown operation: " ++ msg.type))],
        fs, false⟩ := by
  simp only [List.mem_cons, List.not_mem_nil, or_false, not_or] at hT
  obtain ⟨h1, h2, h3, h4, h5, h6, h7, h8, h9, h10⟩ := hT
  simp [handleFrame, handleMessage, hA, dispatchOp, h1, h2, h3, h4, h5, h6, h7, h8, h9, h10]

/-- Witness for C10: a `chmod` frame. -/
theorem unknown_operation_gets_result_envelope_witness :
    handleFrame demoCfg demoEnv demoFs (.ok { type := "chmod", requestId := 9 }) =
      ⟨[.result 9 false none (some "Unknown operation: chmod")], demoFs, false⟩ :=
  unknown_operation_gets_result_envelope demoCfg demoEnv demoFs
    { type := "chmod", requestId := 9 } rfl (by decide)

/-- C5 counterexample: the claim says the client is never Active (able to
send requests) before the first inbound envelope. In the code,
`ws.onopen` alone already sets `connected = true`: after `connect()` and
the bare transport-open callback — no inbound envelope at all — the client
is connected and a request is accepted and sent. -/
theorem client_active_before_first_envelope :
    ((clientRun {} (initClient {}) [.connectCall, .wsOpen]).1).connected = true
    ∧ (clientRun {} (initClient {}) [.connectCall, .wsOpen, .requestCall "list"]).2 =
      [.requestSent 1 "list"] := by decide

/-- C5 amended: transport open — before any inbound envelope — is what
makes the client Active and resets the reconnect counter to zero, with no
outward effect; the capabilities push then stores the server config, fires
`onConnect` and resolves the pending `connect()` call, leaving the
connected flag and the reconnect counter unchanged. -/
theorem open_activates_push_resolves (cfg : ClientConfig) (s : ClientState)
    (sc : ServerConfig) :
    (clientStep cfg s .wsOpen).1.connected = true
    ∧ (clientStep cfg s .wsOpen).1.reconnectAttempts = 0
    ∧ (clientStep cfg s .wsOpen).2 = []
    ∧ (clientStep cfg s (.wsMessage (.connected sc))).1.connected = s.connected
    ∧ (clientStep cfg s (.wsMessage (.connected sc))).1.reconnectAttempts = s.reconnectAttempts
    ∧ (clientStep cfg s (.wsMessage (.connected sc))).1.serverConfig = some sc
    ∧ (clientStep cfg s (.wsMessage (.connected sc))).1.connecting = false
    ∧ (clientStep cfg s (.wsMessage (.connected sc))).2 = [.onConnectCb, .connectResolved] :=
  ⟨rfl, rfl, rfl, rfl, rfl, rfl, rfl, rfl⟩

/-- C6: while auto-reconnect is on, a transport close with the attempt
counter at or above `maxReconnectAttempts` schedules nothing and leaves the
client disconnected (until an explicit `connect()`); with the counter at
`k` below the ceiling and no timer pending, it arms a retry timer for
exactly `min(reconnectDelay * 2 ^ k, maxReconnectDelay)`. -/
theorem reconnect_cap_and_backoff (cfg : ClientConfig) (s : ClientState)
    (hA : s.autoReconnect = true) :
    (cfg.maxReconnectAttempts ≤ s.reconnectAttempts →
      (clientStep cfg s .wsClose).1.connected = false
      ∧ (clientStep cfg s .wsClose).1.reconnectTimer = s.reconnectTimer
      ∧ ∀ d, ClientOutput.scheduledReconnect d ∉ (clientStep cfg s .wsClose).2)
    ∧ (s.reconnectAttempts < cfg.maxReconnectAttempts → s.reconnectTimer = none →
      (clientStep cfg s .wsClose).1.connected = false
      ∧ (clientStep cfg s .wsClose).1.reconnectTimer =
        some (min (cfg.reconnectDelay * 2 ^ s.reconnectAttempts) cfg.maxReconnectDelay)
      ∧ ClientOutput.scheduledReconnect
          (min (cfg.reconnectDelay * 2 ^ s.reconnectAttempts) cfg.maxReconnectDelay)
          ∈ (clientStep cfg s .wsClose).2) := by
  constructor
  · intro hGe
    have hcond : ¬ (s.autoReconnect = true ∧
        s.reconnectAttempts < cfg.maxReconnectAttempts) := by
      rintro ⟨-, hlt⟩
      exact absurd hlt (Nat.not_lt_of_le hGe)
    refine ⟨?_, ?_, ?_⟩
    · simp [clientStep, hcond]
    · simp [clientStep, hcond]
    · intro d
      simp only [clientStep, hcond, if_false]
      simp [List.mem_append, List.mem_map]
  · intro hLt hNone
    have hcond : s.autoReconnect = true ∧
        s.reconnectAttempts < cfg.maxReconnectAttempts := ⟨hA, hLt⟩
    refine ⟨?_, ?_, ?_⟩
    · simp [clientStep, hcond, scheduleReconnect, hNone]
    · simp [clientStep, hcond, scheduleReconnect, hNone]
    · simp [clientStep, hcond, scheduleReconnect, hNone]

/-- Witness for C6 with `maxReconnectAttempts = 3`: at 3 consumed attempts
the close schedules nothing; at 1 attempt it schedules a 2000 ms retry
(`min(1000 * 2^1, 30000)`). -/
theorem reconnect_cap_and_backoff_witness :
    (clientStep { maxReconnectAttempts := 3 }
        ⟨true, false, false, 3, none, 0, [], none, true⟩ .wsClose).1.reconnectTimer = none
    ∧ (∀ d, ClientOutput.scheduledReconnect d ∉
        (clientStep { maxReconnectAttempts := 3 }
          ⟨true, false, false, 3, none, 0, [], none, true⟩ .wsClose).2)
    ∧ (clientStep { maxReconnectAttempts := 3 }
        ⟨true, false, false, 1, none, 0, [], none, true⟩ .wsClose).1.reconnectTimer =
        some 2000 := by
  have h1 := reconnect_cap_and_backoff { maxReconnectAttempts := 3 }
    ⟨true, false, false, 3, none, 0, [], none, true⟩ rfl
  have h2 := reconnect_cap_and_backoff { maxReconnectAttempts := 3 }
    ⟨true, false, false, 1, none, 0, [], none, true⟩ rfl
  exact ⟨(h1.1 (by decide)).2.1, (h1.1 (by decide)).2.2,
    (h2.2 (by decide) rfl).2.1⟩

/-- C7 counterexample: the claim says requestIds start from 1 on every
connection. The counter `requestId` is a field of the client object and is
never reset: on a second connection after a reconnect the first request is
assigned id 2, not 1, as this full two-connection trace shows. -/
theorem requestId_continues_across_connections :
    (clientRun { autoReconnect := false } (initClient { autoReconnect := false })
      [.connectCall, .wsOpen, .wsMessage (.connected ⟨["/data"], false, false, 10⟩),
       .requestCall "list", .wsClose, .connectCall, .wsOpen,
       .wsMessage (.connected ⟨["/data"], false, false, 10⟩),
       .requestCall "stat"]).2 =
      [.onConnectCb, .connectResolved, .requestSent 1 "list",
       .requestRejectedWith 1 "Connection closed", .onDisconnectCb,
       .onConnectCb, .connectResolved, .requestSent 2 "stat"] := by decide

theorem sentIds_append (a b : List ClientOutput) :
    sentIds (a ++ b) = sentIds a ++ sentIds b :=
  List.filterMap_append a b _

theorem sentIds_map_reject (l : List Nat) (m : String) :
    sentIds (l.map (fun id => ClientOutput.requestRejectedWith id m)) = [] := by
  induction l with
  | nil => rfl
  | cons x xs ih => simp [sentIds, List.filterMap_cons, ih]

/-- One client step sends exactly the requestIds `s.requestId + 1, …,
s'.requestId` (an empty range for every event except an accepted
`request()` call, which sends the single id `s.requestId + 1`). -/
theorem sentIds_clientStep (cfg : ClientConfig) (s : ClientState) (e : ClientEvent) :
    s.requestId ≤ (clientStep cfg s e).1.requestId
    ∧ sentIds (clientStep cfg s e).2 =
      List.range' (s.requestId + 1) ((clientStep cfg s e).1.requestId - s.requestId) := by
  cases e with
  | connectCall =>
    simp only [clientStep, connectStep]
    split
    · simp [sentIds]
    · split <;> simp [sentIds]
  | wsOpen => simp [clientStep, sentIds]
  | wsError =>
    simp only [clientStep]
    split <;> simp [sentIds]
  | wsMessage msg =>
    cases msg with
    | connected sc => simp [clientStep, clientHandleMessage, sentIds]
    | error em =>
      simp only [clientStep, clientHandleMessage]
      split <;> simp [sentIds]
    | result rid success data errMsg =>
      simp only [clientStep, clientHandleMessage]
      split
      · split <;> simp [sentIds]
      · simp [sentIds]
  | wsClose =>
    simp only [clientStep]
    split
    · simp only [scheduleReconnect]
      split <;>
        · constructor
          · simp
          · rw [sentIds_append, sentIds_append, sentIds_map_reject]
            simp only [sentIds]
            split <;> simp
    · constructor
      · simp
      · rw [sentIds_append, sentIds_map_reject]
        simp only [sentIds]
        split <;> simp
  | timerFire =>
    simp only [clientStep, connectStep]
    split
    · simp [sentIds]
    · split <;> simp [sentIds]
  | requestCall op =>
    simp only [clientStep]
    split
    · simp [sentIds]
    · simp [sentIds, List.range'_one]
  | disconnectCall =>
    simp only [clientStep]
    split <;> simp [sentIds]

/-- Over a whole trace, the sent requestIds are the consecutive range from
`s.requestId + 1` up to the final counter value. -/
theorem sentIds_clientRun (cfg : ClientConfig) (evs : List ClientEvent)
    (s : ClientState) :
    s.requestId ≤ (clientRun cfg s evs).1.requestId
    ∧ sentIds (clientRun cfg s evs).2 =
      List.range' (s.requestId + 1) ((clientRun cfg s evs).1.requestId - s.requestId) := by
  induction evs generalizing s with
  | nil => simp [clientRun, sentIds]
  | cons e rest ih =>
    obtain ⟨h1, h2⟩ := sentIds_clientStep cfg s e
    obtain ⟨h3, h4⟩ := ih (clientStep cfg s e).1
    constructor
    · calc s.requestId ≤ (clientStep cfg s e).1.requestId := h1
        _ ≤ _ := h3
    · show sentIds ((clientStep cfg s e).2 ++
          (clientRun cfg (clientStep cfg s e).1 rest).2) =
        List.range' (s.requestId + 1)
          ((clientRun cfg (clientStep cfg s e).1 rest).1.requestId - s.requestId)
      rw [sentIds_append, h2, h4]
      have hm : (clientStep cfg s e).1.requestId + 1 =
          (s.requestId + 1) + ((clientStep cfg s e).1.requestId - s.requestId) := by
        omega
      rw [hm, List.range'_append_1]
      congr 1
      omega

/-- C7 amended: over any event trace from client construction, the
requestIds assigned to sent requests are exactly `1, 2, …, n` in order —
unique, monotonically increasing from 1, never reused — for the lifetime
of the client object. After a reconnect the counter continues from the
previous connection's last value, so an individual later connection does
not restart at 1. -/
theorem requestIds_consecutive_from_one (cfg : ClientConfig)
    (evs : List ClientEvent) :
    sentIds (clientRun cfg (initClient cfg) evs).2 =
      List.range' 1 ((clientRun cfg (initClient cfg) evs).1.requestId) := by
  simpa [initClient] using (sentIds_clientRun cfg evs (initClient cfg)).2

/-- C8: a transport close while the client is Active rejects every
still-pending request with `Connection closed` and empties the pending
table; a `result` envelope whose requestId has no pending entry leaves the
state untouched and produces no output at all. -/
theorem close_rejects_pending_unknown_result_ignored (cfg : ClientConfig)
    (s : ClientState) (hC : s.connected = true) (rid : Nat) (success : Bool)
    (data : Option OpData) (errMsg : Option String)
    (hNP : rid ∉ s.pendingRequests) :
    (clientStep cfg s .wsClose).1.pendingRequests = []
    ∧ (∀ id ∈ s.pendingRequests,
        ClientOutput.requestRejectedWith id "Connection closed" ∈
          (clientStep cfg s .wsClose).2)
    ∧ clientStep cfg s (.wsMessage (.result rid success data errMsg)) = (s, []) := by
  refine ⟨?_, ?_, ?_⟩
  · simp only [clientStep]
    split
    · simp only [scheduleReconnect]
      split <;> rfl
    · rfl
  · intro id hid
    have hmem : ClientOutput.requestRejectedWith id "Connection closed" ∈
        s.pendingRequests.map
          (fun i => ClientOutput.requestRejectedWith i "Connection closed") :=
      List.mem_map_of_mem _ hid
    simp only [clientStep]
    split
    · exact List.mem_append_left _ (List.mem_append_left _ hmem)
    · exact List.mem_append_left _ hmem
  · simp [clientStep, clientHandleMessage, hNP]

/-- Witness for C8: a connected client with pending requests 1 and 2; the
close rejects both, and a stray result for id 5 is ignored. -/
theorem close_rejects_pending_unknown_result_ignored_witness :
    (clientStep {} ⟨true, true, false, 0, none, 2, [1, 2], none, true⟩
        .wsClose).1.pendingRequests = []
    ∧ ClientOutput.requestRejectedWith 1 "Connection closed" ∈
        (clientStep {} ⟨true, true, false, 0, none, 2, [1, 2], none, true⟩ .wsClose).2
    ∧ clientStep {} ⟨true, true, false, 0, none, 2, [1, 2], none, true⟩
        (.wsMessage (.result 5 true none none)) =
      (⟨true, true, false, 0, none, 2, [1, 2], none, true⟩, []) := by
  have h := close_rejects_pending_unknown_result_ignored {}
    ⟨true, true, false, 0, none, 2, [1, 2], none, true⟩ rfl 5 true none none (by decide)
  exact ⟨h.1, h.2.1 1 (by decide), h.2.2⟩

end XFiles
